import Mathlib

/-!
Shallow embedding of the cat-voting backend (`src/backend/server.js`) and the
WinnerScreen client-side winner computation (frontend). SQLite rows become Lean
structures, tables become lists of rows, and each Express handler becomes a
function from the database state (plus the request body, where there is one) to
a response and a new database state.

Conventions:
* integer columns are `Int` (JavaScript numbers in the relevant code are
  integers); TEXT columns are `String`; nullable columns are `Option`;
* `created_at` columns are omitted: no handler reads them;
* AUTOINCREMENT primary keys are modelled with explicit `next…Id` counters;
* the current calendar month string computed by
  `new Date().toISOString().slice(0, 7)` is passed as an explicit parameter.
-/

namespace CatVote

/-- Row of the `cats` table: `id INTEGER PRIMARY KEY AUTOINCREMENT`,
`image_url TEXT NOT NULL`, `external_id TEXT UNIQUE` (nullable). -/
structure Cat where
  id : Int
  image_url : String
  external_id : Option String
  deriving Repr, DecidableEq

/-- Row of the `votes` table: `id`, `cat_id INTEGER NOT NULL` (foreign key to
`cats.id`), `vote_type TEXT NOT NULL`. -/
structure Vote where
  id : Int
  cat_id : Int
  vote_type : String
  deriving Repr, DecidableEq

/-- Row of the `monthly_winners` table: `id`, `cat_id INTEGER NOT NULL`
(foreign key to `cats.id`), `month_year TEXT NOT NULL`,
`upvote_count INTEGER DEFAULT 0`. -/
structure MonthlyWinner where
  id : Int
  cat_id : Int
  month_year : String
  upvote_count : Int
  deriving Repr, DecidableEq

/-- The SQLite database state: the three tables plus the AUTOINCREMENT
counters for the two tables the API inserts into. -/
structure DB where
  cats : List Cat
  votes : List Vote
  monthly_winners : List MonthlyWinner
  nextCatId : Int
  nextVoteId : Int
  deriving Repr, DecidableEq

/-- A freshly created database (the `CREATE TABLE IF NOT EXISTS` statements on
an absent file). -/
def DB.empty : DB := ⟨[], [], [], 1, 1⟩

/-! ### GET /api/cats (listCats) -/

/-- One row of the `listCats` result set:
`cats.id, cats.image_url, upvotes, downvotes`. -/
structure CatRow where
  id : Int
  image_url : String
  upvotes : Int
  downvotes : Int
  deriving Repr, DecidableEq

/-- SUM of `CASE WHEN votes.vote_type = t THEN 1 ELSE 0 END` over the vote rows
joined to cat `cid`.  With the LEFT JOIN, a cat with no matching vote rows
contributes a single all-NULL joined row whose CASE yields 0, so the sum is 0,
never NULL. -/
def voteTypeCount (votes : List Vote) (cid : Int) (t : String) : Int :=
  (votes.countP (fun v => v.cat_id = cid && v.vote_type = t) : Int)

/-- The aggregated output row for one cat (the GROUP BY `cats.id` group). -/
def catRow (votes : List Vote) (c : Cat) : CatRow :=
  ⟨c.id, c.image_url, voteTypeCount votes c.id "upvote",
    voteTypeCount votes c.id "downvote"⟩

/-- The `/api/cats` query: LEFT JOIN cats to votes, GROUP BY `cats.id`,
aggregate the two conditional counts, ORDER BY upvotes DESC (ties are left in
an engine-chosen order; the model keeps a stable insertion-sort order). -/
def listCats (db : DB) : List CatRow :=
  (db.cats.map (catRow db.votes)).insertionSort (fun a b => b.upvotes ≤ a.upvotes)

/-! ### GET /api/winner (getCurrentWinner) -/

/-- One row of the `/api/winner` result set:
`cats.id, cats.image_url, monthly_winners.upvote_count`. -/
structure WinnerRow where
  id : Int
  image_url : String
  upvote_count : Int
  deriving Repr, DecidableEq

/-- The inner JOIN of the `monthly_winners` rows whose `month_year` equals the
requested month with their `cats` rows (match on `cats.id = cat_id`; ids are a
primary key, so `find?` picks the unique match when one exists). -/
def winnerJoin (db : DB) (month : String) : List WinnerRow :=
  db.monthly_winners.filterMap (fun w =>
    if w.month_year = month then
      (db.cats.find? (fun c => c.id = w.cat_id)).map
        (fun c => ⟨c.id, c.image_url, w.upvote_count⟩)
    else none)

/-- comparison step for ORDER BY `upvote_count` DESC LIMIT 1: keep the row
seen so far unless the next row's count is strictly greater. -/
def maxRow (a b : WinnerRow) : WinnerRow :=
  if b.upvote_count > a.upvote_count then b else a

/-- ORDER BY `upvote_count` DESC LIMIT 1 over a result set: the first row in
descending order, i.e. a row carrying the maximal `upvote_count` (the engine
does not specify which row among ties; the model keeps the first maximum). -/
def headMaxByUpvotes : List WinnerRow → Option WinnerRow
  | [] => none
  | r :: rs => some (rs.foldl maxRow r)

/-- The `/api/winner` handler body on a successful query: `db.get` returns the
single row or nothing, and the response is `row || null`.  `month` stands for
`new Date().toISOString().slice(0, 7)`. -/
def getCurrentWinner (db : DB) (month : String) : Option WinnerRow :=
  headMaxByUpvotes (winnerJoin db month)

/-! ### POST /api/votes (submitVote) -/

/-- The destructured request body `const { cat_id, vote_type } = req.body`:
either field may be absent (JavaScript `undefined`, modelled as `none`). -/
structure VoteBody where
  cat_id : Option Int
  vote_type : Option String
  deriving Repr, DecidableEq

/-- JavaScript truthiness of an optional number: `undefined`/`null` and `0`
are falsy (`!cat_id`). -/
def jsTruthyInt : Option Int → Bool
  | none => false
  | some n => n ≠ 0

/-- JavaScript truthiness of an optional string: `undefined`/`null` and the
empty string are falsy (`!vote_type`). -/
def jsTruthyStr : Option String → Bool
  | none => false
  | some s => s ≠ ""

/-- Responses the `/api/votes` handler can serialize. -/
inductive VoteResp where
  | badRequest (error : String)
  | serverError (error : String)
  | ok (message : String)
  deriving Repr, DecidableEq

/-- INSERT INTO votes (cat_id, vote_type) VALUES (?, ?) under
`PRAGMA foreign_keys = ON`: the insert fails with a constraint violation
when `cat_id` matches no row of `cats`. -/
def insertVote (db : DB) (cid : Int) (vt : String) : Except String DB :=
  if db.cats.any (fun c => c.id = cid) then
    .ok { db with votes := db.votes ++ [⟨db.nextVoteId, cid, vt⟩],
                  nextVoteId := db.nextVoteId + 1 }
  else
    .error "FOREIGN KEY constraint failed"

/-- The `/api/votes` handler: validate (`!cat_id || !vote_type ||
!['upvote','downvote'].includes(vote_type)` gives a 400 before any database
access), then run the insert, answering 500 on a database error and a success
message otherwise. -/
def submitVote (db : DB) (body : VoteBody) : VoteResp × DB :=
  if !jsTruthyInt body.cat_id || !jsTruthyStr body.vote_type
      || !(["upvote", "downvote"].contains (body.vote_type.getD "")) then
    (.badRequest "Invalid cat_id or vote_type", db)
  else
    match insertVote db (body.cat_id.getD 0) (body.vote_type.getD "") with
    | .error _ => (.serverError "Failed to add vote", db)
    | .ok db' => (.ok "Vote recorded", db')

/-! ### POST /api/cats (seedCats) -/

/-- One element of the posted `cats` array, shaped like a record of the
external cat-image source: `url` and an optional external `id` (an absent `id`
becomes SQL NULL, which the UNIQUE constraint never blocks). -/
structure CatInput where
  url : String
  id : Option String
  deriving Repr, DecidableEq

/-- INSERT OR IGNORE INTO cats (image_url, external_id) VALUES (?, ?): a row
whose (non-null) `external_id` already exists is silently skipped; otherwise a
new row is appended with the next AUTOINCREMENT id. -/
def insertOrIgnoreCat (db : DB) (c : CatInput) : DB :=
  match c.id with
  | some eid =>
    if db.cats.any (fun k => k.external_id = some eid) then db
    else { db with cats := db.cats ++ [⟨db.nextCatId, c.url, some eid⟩],
                   nextCatId := db.nextCatId + 1 }
  | none =>
    { db with cats := db.cats ++ [⟨db.nextCatId, c.url, none⟩],
              nextCatId := db.nextCatId + 1 }

/-- The database effect of the `/api/cats` POST body: the queued
`INSERT OR IGNORE` statements run in order once the handler has returned. -/
def seedCatsDb (db : DB) (cats : List CatInput) : DB :=
  cats.foldl insertOrIgnoreCat db

/-- The JSON body serialized by the `/api/cats` POST handler, with the HTTP
status. -/
structure SeedResp where
  status : Int
  success : Bool
  inserted : Int
  deriving Repr, DecidableEq

/-- The final value of the handler's `inserted` counter once every `db.run`
callback has fired: each callback increments it unless that insert errored,
and INSERT OR IGNORE reports no error on a skipped duplicate, so every queued
row is counted, duplicates included. -/
def insertedAfterCallbacks (cats : List CatInput) : Int :=
  (cats.length : Int)

/-- The `/api/cats` POST handler: a 400 when the body's `cats` is not a
non-empty array; otherwise it queues one `INSERT OR IGNORE` per element and
then immediately serializes `res.json(... success: true, inserted ...)`.
node-sqlite3 invokes the `db.run` callbacks asynchronously, after the handler
body has run to completion, so the serialized `inserted` is still the initial
`let inserted = 0`; the increments in the callbacks only happen afterwards
(see `insertedAfterCallbacks`). -/
def seedCats (db : DB) (cats : List CatInput) : SeedResp × DB :=
  if cats.isEmpty then
    (⟨400, false, 0⟩, db)
  else
    (⟨200, true, 0⟩, seedCatsDb db cats)

/-! ### POST /api/clear (clearAll) -/

/-- DELETE FROM votes. -/
def deleteAllVotes (db : DB) : DB := { db with votes := [] }

/-- DELETE FROM monthly_winners. -/
def deleteAllWinners (db : DB) : DB := { db with monthly_winners := [] }

/-- DELETE FROM cats under `PRAGMA foreign_keys = ON`: removing the cat rows
violates the constraint when a vote or monthly-winner row still references
one of them. -/
def deleteAllCats (db : DB) : Except String DB :=
  if db.cats.all (fun c =>
      db.votes.all (fun v => v.cat_id ≠ c.id)
        && db.monthly_winners.all (fun w => w.cat_id ≠ c.id)) then
    .ok { db with cats := [] }
  else
    .error "FOREIGN KEY constraint failed"

/-- The database effect of `/api/clear`: `db.serialize` runs the three DELETE
statements in order — votes, then monthly_winners, then cats (children before
the parent table). -/
def clearAllDb (db : DB) : Except String DB :=
  deleteAllCats (deleteAllWinners (deleteAllVotes db))

/-! ### GET /api/health -/

/-- The `/api/health` response body. -/
structure HealthResp where
  status : String
  deriving Repr, DecidableEq

/-- The `/api/health` handler: `res.json({ status: 'ok' })` and nothing
else — no database statement is issued. -/
def health (db : DB) : HealthResp × DB :=
  (⟨"ok"⟩, db)

/-! ### Error policy: how each handler's response depends on the outcome of
its store operation(s).  A store outcome is `Except String α`: `.error` is the
non-null `err` a node-sqlite3 callback can receive, `.ok` its result. -/

/-- An HTTP response reduced to what the error-policy claims observe: the
status code and whether the JSON body reports success (rather than an
`error` field). -/
structure ApiResponse where
  status : Int
  successBody : Bool
  deriving Repr, DecidableEq

/-- GET /api/cats response: the `db.all` callback answers 500 on `err`,
otherwise 200 with the rows. -/
def listCatsResponse : Except String (List CatRow) → ApiResponse
  | .error _ => ⟨500, false⟩
  | .ok _ => ⟨200, true⟩

/-- GET /api/winner response: the `db.get` callback answers 500 on `err`,
otherwise 200 with `row || null`. -/
def winnerResponse : Except String (Option WinnerRow) → ApiResponse
  | .error _ => ⟨500, false⟩
  | .ok _ => ⟨200, true⟩

/-- POST /api/votes response after validation passed: the `db.run` callback
answers 500 on `err`, otherwise 200 with the success message. -/
def submitVoteResponse : Except String Unit → ApiResponse
  | .error _ => ⟨500, false⟩
  | .ok _ => ⟨200, true⟩

/-- POST /api/cats response for a non-empty array: `res.json` runs outside all
the `db.run` callbacks, so the response is 200/success whatever the outcomes
of the queued inserts are. -/
def seedCatsResponse (_outcomes : List (Except String Unit)) : ApiResponse :=
  ⟨200, true⟩

/-- POST /api/clear response: the three DELETE callbacks only log `err`, and
`res.json(... success: true ...)` runs unconditionally, so the response is
200/success whatever the three outcomes are. -/
def clearAllResponse (_r1 _r2 _r3 : Except String Unit) : ApiResponse :=
  ⟨200, true⟩

/-! ### WinnerScreen client-side winner (frontend) -/

/-- A cat record as held by the Client Data Layer (one element of the `cats`
state): the aggregated fields may be absent, which `(x || 0)` guards. -/
structure ClientCat where
  id : Int
  image_url : String
  upvotes : Option Int
  downvotes : Option Int
  deriving Repr, DecidableEq

/-- JavaScript `x || 0` on an optional number: absent and 0 both give 0. -/
def jsNumOr0 : Option Int → Int
  | none => 0
  | some n => n

/-- The net score `(cat.upvotes || 0) - (cat.downvotes || 0)`. -/
def netScore (c : ClientCat) : Int :=
  jsNumOr0 c.upvotes - jsNumOr0 c.downvotes

/-- The score of the accumulator: `(max?.upvotes || 0) - (max?.downvotes || 0)`
is 0 when `max` is still `null`. -/
def accScore : Option ClientCat → Int
  | none => 0
  | some m => netScore m

/-- One step of the WinnerScreen reduce: keep `cat` only when its score
strictly exceeds the accumulator's. -/
def winnerStep (max : Option ClientCat) (cat : ClientCat) : Option ClientCat :=
  if netScore cat > accScore max then some cat else max

/-- The WinnerScreen computation
`cats.reduce((max, cat) => ..., null)`: the highest-net-score cat, starting
from `null` (which scores 0, so only a strictly positive score replaces it). -/
def winnerReduce (cats : List ClientCat) : Option ClientCat :=
  cats.foldl winnerStep none

/-! ## Helper lemmas -/

/-- number of cat rows carrying the (non-null) external id `e`. -/
def extCount (db : DB) (e : String) : Nat :=
  db.cats.countP (fun c => c.external_id = some e)

theorem extCount_step_mono (db : DB) (c : CatInput) (e : String) :
    extCount db e ≤ extCount (insertOrIgnoreCat db c) e := by
  rcases c with ⟨u, _ | eid⟩
  · simp [insertOrIgnoreCat, extCount, List.countP_append]
  · by_cases hany : db.cats.any (fun k => k.external_id = some eid)
    · simp [insertOrIgnoreCat, hany]
    · simp [insertOrIgnoreCat, hany, extCount, List.countP_append]

theorem extCount_step_cover (db : DB) (u : String) (e : String) :
    1 ≤ extCount (insertOrIgnoreCat db ⟨u, some e⟩) e := by
  by_cases hany : db.cats.any (fun k => k.external_id = some e)
  · obtain ⟨k, hk, hke⟩ := List.any_eq_true.mp hany
    have : 0 < extCount db e :=
      List.countP_pos_iff.mpr ⟨k, hk, hke⟩
    exact le_trans this (extCount_step_mono db ⟨u, some e⟩ e)
  · simp [insertOrIgnoreCat, hany, extCount, List.countP_append]

theorem extCount_step_bound (db : DB) (c : CatInput) (e : String)
    (h : extCount db e ≤ 1) : extCount (insertOrIgnoreCat db c) e ≤ 1 := by
  rcases c with ⟨u, _ | eid⟩
  · simpa [insertOrIgnoreCat, extCount, List.countP_append] using h
  · by_cases hany : db.cats.any (fun k => k.external_id = some eid)
    · simpa [insertOrIgnoreCat, hany] using h
    · by_cases he : eid = e
      · subst he
        have h0 : db.cats.countP (fun c => c.external_id = some eid) = 0 := by
          rw [List.countP_eq_zero]
          intro k hk
          simp only [decide_eq_true_eq]
          intro hke
          exact absurd (List.any_eq_true.mpr ⟨k, hk, by simp [hke]⟩) hany
        simp [insertOrIgnoreCat, hany, extCount, List.countP_append, h0]
      · have hne : (some eid = some e) = False := by simp [he]
        simpa [insertOrIgnoreCat, hany, extCount, List.countP_append, he] using h

theorem extCount_seed_mono (l : List CatInput) (db : DB) (e : String) :
    extCount db e ≤ extCount (seedCatsDb db l) e := by
  induction l generalizing db with
  | nil => simp [seedCatsDb]
  | cons c t ih =>
    calc extCount db e ≤ extCount (insertOrIgnoreCat db c) e :=
          extCount_step_mono db c e
      _ ≤ extCount (seedCatsDb (insertOrIgnoreCat db c) t) e := ih _
      _ = extCount (seedCatsDb db (c :: t)) e := rfl

theorem extCount_seed_bound (l : List CatInput) (db : DB) (e : String)
    (h : extCount db e ≤ 1) : extCount (seedCatsDb db l) e ≤ 1 := by
  induction l generalizing db with
  | nil => simpa [seedCatsDb] using h
  | cons c t ih => exact ih _ (extCount_step_bound db c e h)

theorem extCount_seed_cover (l : List CatInput) (db : DB) (e : String)
    (h : ∃ c ∈ l, c.id = some e) : 1 ≤ extCount (seedCatsDb db l) e := by
  induction l generalizing db with
  | nil => simp at h
  | cons c t ih =>
    obtain ⟨c2, hc2, hce⟩ := h
    rcases List.mem_cons.mp hc2 with heq | htl
    · subst heq
      rcases c2 with ⟨u, cid⟩
      obtain rfl : cid = some e := hce
      exact le_trans (extCount_step_cover db u e)
        (extCount_seed_mono t (insertOrIgnoreCat db ⟨u, some e⟩) e)
    · exact ih _ ⟨c2, htl, hce⟩

theorem insertOrIgnoreCat_noop (db : DB) (c : CatInput) (e : String)
    (hid : c.id = some e) (h : 1 ≤ extCount db e) :
    insertOrIgnoreCat db c = db := by
  obtain ⟨k, hk, hke⟩ := List.countP_pos_iff.mp (Nat.lt_of_lt_of_le Nat.zero_lt_one h)
  rcases c with ⟨u, cid⟩
  cases hid
  have hany : db.cats.any (fun x => x.external_id = some e) = true :=
    List.any_eq_true.mpr ⟨k, hk, hke⟩
  simp [insertOrIgnoreCat, hany]

theorem seedCatsDb_noop (l : List CatInput) (db : DB)
    (h : ∀ c ∈ l, ∃ e, c.id = some e ∧ 1 ≤ extCount db e) :
    seedCatsDb db l = db := by
  induction l with
  | nil => rfl
  | cons c t ih =>
    obtain ⟨e, hid, hcnt⟩ := h c (List.mem_cons_self c t)
    have hstep : insertOrIgnoreCat db c = db := insertOrIgnoreCat_noop db c e hid hcnt
    show seedCatsDb (insertOrIgnoreCat db c) t = db
    rw [hstep]
    exact ih (fun x hx => h x (List.mem_cons_of_mem c hx))

theorem seedCatsDb_ensures (l : List CatInput) (db : DB) (c : CatInput) (e : String)
    (hc : c ∈ l) (hid : c.id = some e) : 1 ≤ extCount (seedCatsDb db l) e :=
  extCount_seed_cover l db e ⟨c, hc, hid⟩

theorem headMaxByUpvotes_eq_none_iff (l : List WinnerRow) :
    headMaxByUpvotes l = none ↔ l = [] := by
  cases l with
  | nil => simp [headMaxByUpvotes]
  | cons r rs => simp [headMaxByUpvotes]

theorem foldl_maxRow_spec (rs : List WinnerRow) :
    ∀ a : WinnerRow,
      (rs.foldl maxRow a = a ∨ rs.foldl maxRow a ∈ rs) ∧
      a.upvote_count ≤ (rs.foldl maxRow a).upvote_count ∧
      ∀ x ∈ rs, x.upvote_count ≤ (rs.foldl maxRow a).upvote_count := by
  induction rs with
  | nil => exact fun a => ⟨Or.inl rfl, le_refl _, fun x hx => absurd hx (List.not_mem_nil x)⟩
  | cons b t ih =>
    intro a
    obtain ⟨hmem, hacc, hall⟩ := ih (maxRow a b)
    have hstep : maxRow a b = a ∨ maxRow a b = b := by
      unfold maxRow
      split
      · exact Or.inr rfl
      · exact Or.inl rfl
    have ha_le : a.upvote_count ≤ (maxRow a b).upvote_count := by
      unfold maxRow
      split
      · next hgt => exact le_of_lt hgt
      · exact le_refl _
    have hb_le : b.upvote_count ≤ (maxRow a b).upvote_count := by
      unfold maxRow
      split
      · exact le_refl _
      · next hle => exact le_of_not_lt hle
    refine ⟨?_, le_trans ha_le hacc, ?_⟩
    · show t.foldl maxRow (maxRow a b) = a ∨ t.foldl maxRow (maxRow a b) ∈ b :: t
      rcases hmem with hmem | hmem
      · rcases hstep with hs | hs
        · exact Or.inl (hmem.trans hs)
        · refine Or.inr ?_
          rw [hmem, hs]
          exact List.mem_cons_self b t
      · exact Or.inr (List.mem_cons_of_mem b hmem)
    · intro x hx
      rcases List.mem_cons.mp hx with rfl | hx
      · exact le_trans hb_le hacc
      · exact hall x hx

theorem headMaxByUpvotes_some_spec (l : List WinnerRow) :
    ∀ r, headMaxByUpvotes l = some r →
      r ∈ l ∧ ∀ x ∈ l, x.upvote_count ≤ r.upvote_count := by
  cases l with
  | nil => intro r h; cases h
  | cons a t =>
    intro r h
    injection h with h
    subst h
    obtain ⟨hmem, hacc, hall⟩ := foldl_maxRow_spec t a
    constructor
    · rcases hmem with hmem | hmem
      · rw [hmem]
        exact List.mem_cons_self a t
      · exact List.mem_cons_of_mem a hmem
    · intro x hx
      rcases List.mem_cons.mp hx with rfl | hx
      · exact hacc
      · exact hall x hx

theorem winnerJoin_eq_nil (db : DB) (month : String)
    (h : ∀ w ∈ db.monthly_winners, w.month_year ≠ month) :
    winnerJoin db month = [] := by
  rw [winnerJoin, List.filterMap_eq_nil_iff]
  intro w hw
  rw [if_neg (h w hw)]

theorem mem_winnerJoin (db : DB) (month : String) (r : WinnerRow)
    (hr : r ∈ winnerJoin db month) :
    ∃ w ∈ db.monthly_winners, w.month_year = month ∧ r.upvote_count = w.upvote_count ∧
      ∃ c ∈ db.cats, c.id = w.cat_id ∧ r.id = c.id ∧ r.image_url = c.image_url := by
  obtain ⟨w, hw, hfw⟩ := List.mem_filterMap.mp hr
  by_cases hm : w.month_year = month
  · rw [if_pos hm] at hfw
    rcases hfind : db.cats.find? (fun c => c.id = w.cat_id) with _ | c <;> rw [hfind] at hfw
    · cases hfw
    · injection hfw with hfw
      have hc_mem := List.mem_of_find?_eq_some hfind
      have hc_id : c.id = w.cat_id := by simpa using List.find?_some hfind
      exact ⟨w, hw, hm, by rw [← hfw], c, hc_mem, hc_id, by rw [← hfw], by rw [← hfw]⟩
  · rw [if_neg hm] at hfw
    cases hfw

theorem winner_row_mem_join (db : DB) (month : String) (w : MonthlyWinner)
    (hw : w ∈ db.monthly_winners) (hm : w.month_year = month)
    (hri : ∃ c ∈ db.cats, c.id = w.cat_id) :
    ∃ r ∈ winnerJoin db month, r.upvote_count = w.upvote_count := by
  have hsome : (db.cats.find? (fun c => c.id = w.cat_id)).isSome := by
    rw [List.find?_isSome]
    obtain ⟨c, hc, hcid⟩ := hri
    exact ⟨c, hc, by simp [hcid]⟩
  obtain ⟨c, hc⟩ := Option.isSome_iff_exists.mp hsome
  refine ⟨⟨c.id, c.image_url, w.upvote_count⟩, ?_, rfl⟩
  exact List.mem_filterMap.mpr ⟨w, hw, by rw [if_pos hm, hc]; rfl⟩

theorem submitVote_preserves_ref (db : DB) (body : VoteBody)
    (hinv : ∀ v ∈ db.votes, ∃ c ∈ db.cats, c.id = v.cat_id) :
    ∀ v ∈ (submitVote db body).2.votes, ∃ c ∈ (submitVote db body).2.cats, c.id = v.cat_id := by
  unfold submitVote
  split
  · exact hinv
  · rcases hins : insertVote db (body.cat_id.getD 0) (body.vote_type.getD "") with err | db2
    · simpa [hins] using hinv
    · simp only [hins]
      unfold insertVote at hins
      by_cases hany : db.cats.any (fun c => c.id = body.cat_id.getD 0)
      · rw [if_pos hany] at hins
        injection hins with hins
        subst hins
        intro v hv
        rcases List.mem_append.mp hv with hold | hnew
        · exact hinv v hold
        · obtain ⟨c, hc, hpc⟩ := List.any_eq_true.mp hany
          simp only [decide_eq_true_eq] at hpc
          have : v.cat_id = body.cat_id.getD 0 := by
            simp at hnew
            rw [hnew]
          exact ⟨c, hc, by rw [hpc, this]⟩
      · rw [if_neg hany] at hins
        cases hins

theorem winnerStep_eq_or (acc : Option ClientCat) (c : ClientCat) :
    winnerStep acc c = acc ∨ winnerStep acc c = some c := by
  unfold winnerStep
  split
  · exact Or.inr rfl
  · exact Or.inl rfl

theorem accScore_winnerStep_left (acc : Option ClientCat) (c : ClientCat) :
    accScore acc ≤ accScore (winnerStep acc c) := by
  unfold winnerStep
  split
  · next hgt => exact le_of_lt hgt
  · exact le_refl _

theorem accScore_winnerStep_right (acc : Option ClientCat) (c : ClientCat) :
    netScore c ≤ accScore (winnerStep acc c) := by
  unfold winnerStep
  split
  · exact le_refl _
  · next hle => exact le_of_not_lt hle

theorem winnerFold_eq_or_mem (cats : List ClientCat) :
    ∀ acc : Option ClientCat,
      cats.foldl winnerStep acc = acc ∨ ∃ w ∈ cats, cats.foldl winnerStep acc = some w := by
  induction cats with
  | nil => exact fun acc => Or.inl rfl
  | cons c t ih =>
    intro acc
    simp only [List.foldl_cons]
    rcases ih (winnerStep acc c) with h | ⟨w, hw, heq⟩
    · rcases winnerStep_eq_or acc c with hs | hs
      · exact Or.inl (by rw [h, hs])
      · exact Or.inr ⟨c, List.mem_cons_self c t, by rw [h, hs]⟩
    · exact Or.inr ⟨w, List.mem_cons_of_mem c hw, heq⟩

theorem winnerFold_mono (cats : List ClientCat) :
    ∀ acc : Option ClientCat,
      accScore acc ≤ accScore (cats.foldl winnerStep acc) := by
  induction cats with
  | nil => exact fun acc => le_refl _
  | cons c t ih =>
    intro acc
    exact le_trans (accScore_winnerStep_left acc c) (ih (winnerStep acc c))

theorem winnerFold_ge (cats : List ClientCat) :
    ∀ acc : Option ClientCat, ∀ c ∈ cats,
      netScore c ≤ accScore (cats.foldl winnerStep acc) := by
  induction cats with
  | nil => intro acc c hc; cases hc
  | cons b t ih =>
    intro acc c hc
    rcases List.mem_cons.mp hc with rfl | hc
    · exact le_trans (accScore_winnerStep_right acc c) (winnerFold_mono t (winnerStep acc c))
    · exact ih (winnerStep acc b) c hc

theorem winnerFold_noop (cats : List ClientCat) :
    ∀ acc : Option ClientCat,
      (∀ c ∈ cats, netScore c ≤ accScore acc) → cats.foldl winnerStep acc = acc := by
  induction cats with
  | nil => exact fun acc _ => rfl
  | cons c t ih =>
    intro acc h
    have hstep : winnerStep acc c = acc := by
      unfold winnerStep
      rw [if_neg (not_lt.mpr (h c (List.mem_cons_self c t)))]
    show t.foldl winnerStep (winnerStep acc c) = acc
    rw [hstep]
    exact ih acc (fun x hx => h x (List.mem_cons_of_mem c hx))

/-! ## Claims -/

/-- C1: listCats reports, for every cat, exactly the number of its vote rows
of each vote_type — the counts are invariant under any permutation of the
votes table, i.e. independent of insertion order — and a cat with no vote
rows appears with upvotes = 0 and downvotes = 0. -/
theorem listCats_counts (db : DB) (vs : List Vote) (hperm : db.votes.Perm vs)
    (c : Cat) (hc : c ∈ db.cats) :
    (∃ r ∈ listCats db, r.id = c.id ∧
        r.upvotes = voteTypeCount vs c.id "upvote" ∧
        r.downvotes = voteTypeCount vs c.id "downvote") ∧
    ((∀ v ∈ db.votes, v.cat_id ≠ c.id) →
      ∃ r ∈ listCats db, r.id = c.id ∧ r.upvotes = 0 ∧ r.downvotes = 0) := by
  have hmem : catRow db.votes c ∈ listCats db := by
    rw [listCats]
    exact ((List.perm_insertionSort _ _).mem_iff).mpr (List.mem_map_of_mem _ hc)
  constructor
  · refine ⟨catRow db.votes c, hmem, rfl, ?_, ?_⟩
    · exact congrArg _ (hperm.countP_eq _)
    · exact congrArg _ (hperm.countP_eq _)
  · intro hz
    have hcnt : ∀ t : String,
        db.votes.countP (fun v => v.cat_id = c.id && v.vote_type = t) = 0 := by
      intro t
      rw [List.countP_eq_zero]
      intro v hv
      simp only [Bool.and_eq_true, decide_eq_true_eq, not_and]
      intro hvc
      exact absurd hvc (hz v hv)
    exact ⟨catRow db.votes c, hmem, rfl,
      by rw [show catRow db.votes c = ⟨c.id, c.image_url, voteTypeCount db.votes c.id "upvote",
          voteTypeCount db.votes c.id "downvote"⟩ from rfl]; simp [voteTypeCount, hcnt],
      by rw [show catRow db.votes c = ⟨c.id, c.image_url, voteTypeCount db.votes c.id "upvote",
          voteTypeCount db.votes c.id "downvote"⟩ from rfl]; simp [voteTypeCount, hcnt]⟩

/-- Witness for C1: two cats, three votes on cat 1 presented in two different
orders; cat 2 has no votes. -/
theorem listCats_counts_witness :
    (∃ r ∈ listCats ⟨[⟨1, "u1", none⟩, ⟨2, "u2", none⟩],
        [⟨1, 1, "upvote"⟩, ⟨2, 1, "downvote"⟩, ⟨3, 1, "upvote"⟩], [], 3, 4⟩,
      r.id = 2 ∧
        r.upvotes = voteTypeCount [⟨3, 1, "upvote"⟩, ⟨2, 1, "downvote"⟩, ⟨1, 1, "upvote"⟩] 2 "upvote" ∧
        r.downvotes = voteTypeCount [⟨3, 1, "upvote"⟩, ⟨2, 1, "downvote"⟩, ⟨1, 1, "upvote"⟩] 2 "downvote") ∧
    ((∀ v ∈ (⟨[⟨1, "u1", none⟩, ⟨2, "u2", none⟩],
        [⟨1, 1, "upvote"⟩, ⟨2, 1, "downvote"⟩, ⟨3, 1, "upvote"⟩], [], 3, 4⟩ : DB).votes,
        v.cat_id ≠ 2) →
      ∃ r ∈ listCats ⟨[⟨1, "u1", none⟩, ⟨2, "u2", none⟩],
          [⟨1, 1, "upvote"⟩, ⟨2, 1, "downvote"⟩, ⟨3, 1, "upvote"⟩], [], 3, 4⟩,
        r.id = 2 ∧ r.upvotes = 0 ∧ r.downvotes = 0) :=
  listCats_counts ⟨[⟨1, "u1", none⟩, ⟨2, "u2", none⟩],
      [⟨1, 1, "upvote"⟩, ⟨2, 1, "downvote"⟩, ⟨3, 1, "upvote"⟩], [], 3, 4⟩
    [⟨3, 1, "upvote"⟩, ⟨2, 1, "downvote"⟩, ⟨1, 1, "upvote"⟩] (by decide)
    ⟨2, "u2", none⟩ (by decide)

/-- C10: the WinnerScreen reduce yields null exactly when no cat has a
strictly positive net score (in particular on the empty list), and when it
yields a cat, that cat is from the list, its net score is strictly positive,
and no cat in the list has a greater net score. -/
theorem winnerReduce_spec (cats : List ClientCat) :
    (winnerReduce cats = none ↔ ∀ c ∈ cats, netScore c ≤ 0) ∧
    (∀ w, winnerReduce cats = some w →
      w ∈ cats ∧ 0 < netScore w ∧ ∀ c ∈ cats, netScore c ≤ netScore w) := by
  constructor
  · constructor
    · intro hnone c hc
      have h3 := winnerFold_ge cats none c hc
      rw [winnerReduce] at hnone
      rw [hnone] at h3
      exact h3
    · intro hall
      exact winnerFold_noop cats none (fun c hc => hall c hc)
  · intro w hw
    have hw2 : cats.foldl winnerStep none = some w := hw
    have hmem : w ∈ cats := by
      rcases winnerFold_eq_or_mem cats none with h | ⟨w2, hmem2, heq⟩
      · rw [h] at hw2
        cases hw2
      · rw [heq] at hw2
        injection hw2 with hw2
        rw [← hw2]
        exact hmem2
    have hmax : ∀ c ∈ cats, netScore c ≤ netScore w := by
      intro c hc
      have h3 := winnerFold_ge cats none c hc
      rw [hw2] at h3
      exact h3
    refine ⟨hmem, ?_, hmax⟩
    by_contra hle
    rw [not_lt] at hle
    have hnone : cats.foldl winnerStep none = none :=
      winnerFold_noop cats none (fun c hc => le_trans (hmax c hc) hle)
    rw [hnone] at hw2
    cases hw2

/-- Witness for C10: of two cats with net scores -2 and 3, the reduce selects
the second. -/
theorem winnerReduce_spec_witness :
    ⟨2, "b", some 4, some 1⟩ ∈ [(⟨1, "a", some 1, some 3⟩ : ClientCat), ⟨2, "b", some 4, some 1⟩] ∧
    0 < netScore ⟨2, "b", some 4, some 1⟩ ∧
    ∀ c ∈ [(⟨1, "a", some 1, some 3⟩ : ClientCat), ⟨2, "b", some 4, some 1⟩],
      netScore c ≤ netScore ⟨2, "b", some 4, some 1⟩ :=
  (winnerReduce_spec [⟨1, "a", some 1, some 3⟩, ⟨2, "b", some 4, some 1⟩]).2
    ⟨2, "b", some 4, some 1⟩ (by decide)

/-- C9: for every request, health (GET /api/health) returns the constant
status-ok body and performs no read or write of the Store, leaving all
tables unchanged. -/
theorem health_constant_and_frame (db : DB) :
    (health db).1 = ⟨"ok"⟩ ∧ (health db).2 = db ∧
      (health db).2.cats = db.cats ∧ (health db).2.votes = db.votes ∧
      (health db).2.monthly_winners = db.monthly_winners :=
  ⟨rfl, rfl, rfl, rfl, rfl⟩

/-- C8: for every database state, clearAll (POST /api/clear) deletes all rows
from votes, monthly_winners and cats, in that order (children before parents,
so the final DELETE passes the foreign-key check), after which listCats
returns an empty list and getCurrentWinner returns null. -/
theorem clearAll_spec (db : DB) (month : String) :
    clearAllDb db = .ok { db with votes := [], monthly_winners := [], cats := [] } ∧
    listCats { db with votes := [], monthly_winners := [], cats := [] } = [] ∧
    getCurrentWinner { db with votes := [], monthly_winners := [], cats := [] } month = none := by
  refine ⟨?_, rfl, rfl⟩
  simp [clearAllDb, deleteAllVotes, deleteAllWinners, deleteAllCats]

/-- C3: for every request body whose vote_type is not exactly upvote or
downvote, and for every body with a missing cat_id, submitVote (POST
/api/votes) responds 400 and leaves the database — in particular the votes
table — unchanged: the rejection happens before any Store access. -/
theorem submitVote_rejects_invalid (db : DB) (body : VoteBody)
    (h : body.vote_type ∉ [some "upvote", some "downvote"] ∨ body.cat_id = none) :
    submitVote db body = (.badRequest "Invalid cat_id or vote_type", db) ∧
    (submitVote db body).2.votes = db.votes := by
  have hcond : (!jsTruthyInt body.cat_id || !jsTruthyStr body.vote_type
      || !(["upvote", "downvote"].contains (body.vote_type.getD ""))) = true := by
    rcases h with h | h
    · rcases hvt : body.vote_type with _ | s
      · simp [jsTruthyStr]
      · have h1 : s ≠ "upvote" := fun hs => h (by rw [hvt, hs]; simp)
        have h2 : s ≠ "downvote" := fun hs => h (by rw [hvt, hs]; simp)
        simp [hvt, h1, h2]
    · simp [h, jsTruthyInt]
  have hmain : submitVote db body = (.badRequest "Invalid cat_id or vote_type", db) := by
    unfold submitVote
    split
    · rfl
    · next hfalse => exact absurd hcond hfalse
  exact ⟨hmain, by rw [hmain]⟩

/-- Witness for C3 at a concrete invalid vote_type. -/
theorem submitVote_rejects_invalid_witness :
    submitVote DB.empty ⟨some 1, some "sideways"⟩
        = (.badRequest "Invalid cat_id or vote_type", DB.empty) ∧
    (submitVote DB.empty ⟨some 1, some "sideways"⟩).2.votes = DB.empty.votes :=
  submitVote_rejects_invalid DB.empty ⟨some 1, some "sideways"⟩ (Or.inl (by decide))

/-- C4: under the referential integrity the foreign key enforces,
getCurrentWinner returns null when no monthly_winners row carries the current
month key, and otherwise exactly one record — one of that month's rows with
the maximal upvote_count, joined with its cat's id and image_url. -/
theorem getCurrentWinner_spec (db : DB) (month : String)
    (hri : ∀ w ∈ db.monthly_winners, ∃ c ∈ db.cats, c.id = w.cat_id) :
    ((∀ w ∈ db.monthly_winners, w.month_year ≠ month) →
        getCurrentWinner db month = none) ∧
    ((∃ w ∈ db.monthly_winners, w.month_year = month) →
      ∃ r, getCurrentWinner db month = some r ∧
        (∃ w ∈ db.monthly_winners, w.month_year = month ∧
          r.upvote_count = w.upvote_count ∧
          ∃ c ∈ db.cats, c.id = w.cat_id ∧ r.id = c.id ∧ r.image_url = c.image_url) ∧
        (∀ w ∈ db.monthly_winners, w.month_year = month →
          w.upvote_count ≤ r.upvote_count)) := by
  constructor
  · intro h
    rw [getCurrentWinner, winnerJoin_eq_nil db month h]
    rfl
  · rintro ⟨w, hw, hm⟩
    obtain ⟨r0, hr0_mem, _⟩ := winner_row_mem_join db month w hw hm (hri w hw)
    have hne : winnerJoin db month ≠ [] := by
      intro hnil
      rw [hnil] at hr0_mem
      cases hr0_mem
    rcases hres : headMaxByUpvotes (winnerJoin db month) with _ | r
    · exact absurd ((headMaxByUpvotes_eq_none_iff _).mp hres) hne
    · obtain ⟨hr_mem, hr_max⟩ := headMaxByUpvotes_some_spec _ r hres
      refine ⟨r, hres, mem_winnerJoin db month r hr_mem, ?_⟩
      intro w2 hw2 hm2
      obtain ⟨r2, hr2_mem, hr2_cnt⟩ := winner_row_mem_join db month w2 hw2 hm2 (hri w2 hw2)
      calc w2.upvote_count = r2.upvote_count := hr2_cnt.symm
        _ ≤ r.upvote_count := hr_max r2 hr2_mem

/-- Witness for C4 on a database with two winner rows for 2026-10 (counts 5
and 9) and one for 2026-09. -/
theorem getCurrentWinner_spec_witness :
    ((∀ w ∈ (⟨[⟨1, "u1", none⟩, ⟨2, "u2", none⟩],
        [], [⟨1, 1, "2026-10", 5⟩, ⟨2, 2, "2026-10", 9⟩, ⟨3, 1, "2026-09", 7⟩],
        3, 1⟩ : DB).monthly_winners, w.month_year ≠ "2026-10") →
      getCurrentWinner ⟨[⟨1, "u1", none⟩, ⟨2, "u2", none⟩],
        [], [⟨1, 1, "2026-10", 5⟩, ⟨2, 2, "2026-10", 9⟩, ⟨3, 1, "2026-09", 7⟩],
        3, 1⟩ "2026-10" = none) ∧
    ((∃ w ∈ (⟨[⟨1, "u1", none⟩, ⟨2, "u2", none⟩],
        [], [⟨1, 1, "2026-10", 5⟩, ⟨2, 2, "2026-10", 9⟩, ⟨3, 1, "2026-09", 7⟩],
        3, 1⟩ : DB).monthly_winners, w.month_year = "2026-10") →
      ∃ r, getCurrentWinner ⟨[⟨1, "u1", none⟩, ⟨2, "u2", none⟩],
          [], [⟨1, 1, "2026-10", 5⟩, ⟨2, 2, "2026-10", 9⟩, ⟨3, 1, "2026-09", 7⟩],
          3, 1⟩ "2026-10" = some r ∧
        (∃ w ∈ (⟨[⟨1, "u1", none⟩, ⟨2, "u2", none⟩],
            [], [⟨1, 1, "2026-10", 5⟩, ⟨2, 2, "2026-10", 9⟩, ⟨3, 1, "2026-09", 7⟩],
            3, 1⟩ : DB).monthly_winners, w.month_year = "2026-10" ∧
          r.upvote_count = w.upvote_count ∧
          ∃ c ∈ (⟨[⟨1, "u1", none⟩, ⟨2, "u2", none⟩],
              [], [⟨1, 1, "2026-10", 5⟩, ⟨2, 2, "2026-10", 9⟩, ⟨3, 1, "2026-09", 7⟩],
              3, 1⟩ : DB).cats, c.id = w.cat_id ∧ r.id = c.id ∧ r.image_url = c.image_url) ∧
        (∀ w ∈ (⟨[⟨1, "u1", none⟩, ⟨2, "u2", none⟩],
            [], [⟨1, 1, "2026-10", 5⟩, ⟨2, 2, "2026-10", 9⟩, ⟨3, 1, "2026-09", 7⟩],
            3, 1⟩ : DB).monthly_winners, w.month_year = "2026-10" →
          w.upvote_count ≤ r.upvote_count)) :=
  getCurrentWinner_spec ⟨[⟨1, "u1", none⟩, ⟨2, "u2", none⟩],
    [], [⟨1, 1, "2026-10", 5⟩, ⟨2, 2, "2026-10", 9⟩, ⟨3, 1, "2026-09", 7⟩],
    3, 1⟩ "2026-10" (by decide)

/-- C5: seeding twice from an empty database with lists whose (non-null)
external ids may overlap leaves exactly one cat row per such external id
appearing in the inputs; and re-seeding the same list (all ids non-null) is
idempotent on the database, hence on the cats table. -/
theorem seedCats_dedup_idempotent (l1 l2 l : List CatInput) (e : String)
    (h1 : ∃ c ∈ l1 ++ l2, c.id = some e) (h2 : ∀ c ∈ l, c.id ≠ none) :
    extCount (seedCatsDb (seedCatsDb DB.empty l1) l2) e = 1 ∧
    ∀ db : DB, seedCatsDb (seedCatsDb db l) l = seedCatsDb db l := by
  constructor
  · have happ : seedCatsDb (seedCatsDb DB.empty l1) l2 = seedCatsDb DB.empty (l1 ++ l2) :=
      (List.foldl_append insertOrIgnoreCat DB.empty l1 l2).symm
    rw [happ]
    have hle : extCount (seedCatsDb DB.empty (l1 ++ l2)) e ≤ 1 :=
      extCount_seed_bound (l1 ++ l2) DB.empty e (by simp [extCount, DB.empty])
    have hge : 1 ≤ extCount (seedCatsDb DB.empty (l1 ++ l2)) e :=
      extCount_seed_cover (l1 ++ l2) DB.empty e h1
    omega
  · intro db
    refine seedCatsDb_noop l (seedCatsDb db l) (fun c hc => ?_)
    rcases hid : c.id with _ | e2
    · exact absurd hid (h2 c hc)
    · exact ⟨e2, rfl, seedCatsDb_ensures l db c e2 hc hid⟩

/-- Witness for C5 at concrete overlapping seed lists. -/
theorem seedCats_dedup_idempotent_witness :
    extCount (seedCatsDb (seedCatsDb DB.empty [⟨"u1", some "a"⟩, ⟨"u2", some "b"⟩])
        [⟨"u3", some "a"⟩]) "a" = 1 ∧
    ∀ db : DB,
      seedCatsDb (seedCatsDb db [⟨"u1", some "a"⟩, ⟨"u2", some "b"⟩])
          [⟨"u1", some "a"⟩, ⟨"u2", some "b"⟩]
        = seedCatsDb db [⟨"u1", some "a"⟩, ⟨"u2", some "b"⟩] :=
  seedCats_dedup_idempotent [⟨"u1", some "a"⟩, ⟨"u2", some "b"⟩] [⟨"u3", some "a"⟩]
    [⟨"u1", some "a"⟩, ⟨"u2", some "b"⟩] "a" (by decide) (by decide)

/-- C7: for a validated body whose cat_id matches no cats row, the insert
fails with a foreign-key constraint violation, the handler answers a 500
server error, and no vote row is created; moreover submitVote, on any body,
preserves the invariant that every vote row references an existing cat. -/
theorem submitVote_fk_spec (db : DB) (body : VoteBody) (cid : Int) (vt : String)
    (hc : body.cat_id = some cid) (hc0 : cid ≠ 0)
    (hv : body.vote_type = some vt) (hvt : vt = "upvote" ∨ vt = "downvote")
    (hmiss : ∀ c ∈ db.cats, c.id ≠ cid) :
    submitVote db body = (.serverError "Failed to add vote", db) ∧
    ∀ body2 : VoteBody,
      (∀ v ∈ db.votes, ∃ c ∈ db.cats, c.id = v.cat_id) →
      ∀ v ∈ (submitVote db body2).2.votes,
        ∃ c ∈ (submitVote db body2).2.cats, c.id = v.cat_id := by
  refine ⟨?_, fun body2 hinv => submitVote_preserves_ref db body2 hinv⟩
  have hcond : (!jsTruthyInt body.cat_id || !jsTruthyStr body.vote_type
      || !(["upvote", "downvote"].contains (body.vote_type.getD ""))) = false := by
    rcases hvt with rfl | rfl <;> simp [hc, hv, jsTruthyInt, jsTruthyStr, hc0]
  have hany : db.cats.any (fun c => c.id = cid) = false := by
    rw [List.any_eq_false]
    intro c hcm
    simp only [decide_eq_true_eq]
    exact hmiss c hcm
  unfold submitVote
  split
  · next htrue => rw [hcond] at htrue; cases htrue
  · simp [insertVote, hc, hv, hany]

/-- Witness for C7: voting for cat 2 when only cat 1 exists. -/
theorem submitVote_fk_spec_witness :
    submitVote ⟨[⟨1, "u", none⟩], [], [], 2, 1⟩ ⟨some 2, some "upvote"⟩
        = (.serverError "Failed to add vote", ⟨[⟨1, "u", none⟩], [], [], 2, 1⟩) ∧
    ∀ body2 : VoteBody,
      (∀ v ∈ (⟨[⟨1, "u", none⟩], [], [], 2, 1⟩ : DB).votes,
        ∃ c ∈ (⟨[⟨1, "u", none⟩], [], [], 2, 1⟩ : DB).cats, c.id = v.cat_id) →
      ∀ v ∈ (submitVote ⟨[⟨1, "u", none⟩], [], [], 2, 1⟩ body2).2.votes,
        ∃ c ∈ (submitVote ⟨[⟨1, "u", none⟩], [], [], 2, 1⟩ body2).2.cats,
          c.id = v.cat_id :=
  submitVote_fk_spec ⟨[⟨1, "u", none⟩], [], [], 2, 1⟩ ⟨some 2, some "upvote"⟩ 2 "upvote"
    rfl (by decide) rfl (Or.inl rfl) (by decide)

/-- C6, counterexample: with all three DELETE statements failing, clearAll
still responds 200 with a success body — not a 5xx — because `res.json` runs
outside the `db.run` callbacks and the callbacks only log errors. -/
theorem clearAll_success_despite_store_failure :
    clearAllResponse (.error "SQLITE_IOERR") (.error "SQLITE_IOERR") (.error "SQLITE_IOERR")
        = ⟨200, true⟩ ∧
    (clearAllResponse (.error "SQLITE_IOERR") (.error "SQLITE_IOERR")
        (.error "SQLITE_IOERR")).status < 500 :=
  ⟨rfl, by decide⟩

/-- C6, amended: a Store failure surfaces as a 500 error response in listCats,
getCurrentWinner and submitVote, but clearAll and seedCats respond 200 with a
success body regardless of Store failures (their callbacks only log). -/
theorem store_failure_policy (e : String) :
    listCatsResponse (.error e) = ⟨500, false⟩ ∧
    winnerResponse (.error e) = ⟨500, false⟩ ∧
    submitVoteResponse (.error e) = ⟨500, false⟩ ∧
    (∀ r1 r2 r3 : Except String Unit, clearAllResponse r1 r2 r3 = ⟨200, true⟩) ∧
    (∀ rs : List (Except String Unit), seedCatsResponse rs = ⟨200, true⟩) :=
  ⟨rfl, rfl, rfl, fun _ _ _ => rfl, fun _ => rfl⟩

/-- C2, the code at the failing input: seeding one fresh cat into an empty
database creates one row, yet the handler's response carries inserted = 0,
because `res.json` serializes the counter before any insert callback has run;
and after the callbacks the counter counts every queued row (duplicates
included, since INSERT OR IGNORE reports no error), not the rows created. -/
theorem seedCats_inserted_always_zero :
    (seedCats DB.empty [⟨"u1", some "c1"⟩]).1 = ⟨200, true, 0⟩ ∧
    (seedCats DB.empty [⟨"u1", some "c1"⟩]).2.cats.length = 1 ∧
    (seedCats DB.empty [⟨"u1", some "c1"⟩, ⟨"u1b", some "c1"⟩]).2.cats.length = 1 ∧
    insertedAfterCallbacks [⟨"u1", some "c1"⟩, ⟨"u1b", some "c1"⟩] = 2 := by
  decide

end CatVote
